import Mathlib

/-!
Shallow embedding of `src/vxLuaGlue.c` (vxWorks-to-Lua glue layer).

The C module exposes four Lua-callable entry points:
  - `vxDo`       (`l_ExecuteLuaCommand`): resolve a symbol name in the
    process-wide vxWorks symbol table and invoke it with up to 15
    machine-word argument slots;
  - `vxGet`      (`l_vxGet`): read the word stored at a data symbol's address;
  - `vxSet`      (`l_vxSet`): overwrite the word stored at a data symbol's
    address;
  - `vxReadLine` (`l_vxReadLine`): prompt-bounded line input.

Modelling choices:
  - The vxWorks symbol table (`sysSymTbl` + `symFindByName`) is an association
    list from names to an address and a `SYM_TYPE` category (code vs data).
  - Native memory is a function `Nat → Nat` from addresses to 32-bit words;
    native invocation is an environment parameter
    `invoke : Nat → List Nat → Int` (address, 15 argument slots, int result),
    and the address of a Lua string's backing storage is an environment
    parameter `addrOf : String → Nat`.
  - Lua dynamic values are an inductive tag type mirroring the type tests the
    C code performs (`lua_isnil`, `lua_isboolean`, ...). The predicates are
    exact dynamic-type tests: Lua's number/string coercion inside
    `lua_isnumber`/`lua_isstring`/`lua_tostring` is external library
    behaviour, abstracted to tag tests as in the module's own data model.
  - C integer truncation `(int32_t)` / `(unsigned int)` storage is modelled
    as reduction modulo 2^32 of the mathematical integer.
  - Each entry point returns, besides the values it pushes on the Lua stack,
    the diagnostic lines it prints and the exact sequence of names it passed
    to `symFindByName`, so that resolution order and "no lookup happened"
    are observable.
-/

namespace VxLuaGlue

/-- Symbol categories recorded in the vxWorks symbol table (`SYM_TYPE`):
executable code symbols versus data symbols. -/
inductive SymType where
  | code
  | data
deriving Repr, DecidableEq

/-- The process-wide symbol table `sysSymTbl`: textual name to native address
and category. -/
abbrev SymTbl := List (String × Nat × SymType)

/-- Embedding of `symFindByName(sysSymTbl, name, &value, &type)`: first entry
whose name matches, or failure. -/
def symFindByName : SymTbl → String → Option (Nat × SymType)
  | [], _ => none
  | (n, v) :: rest, nm => if n = nm then some v else symFindByName rest nm

/-- Dynamic Lua values by type tag, covering every branch of the marshalling
chain in `l_ExecuteLuaCommand` (lines 205-285 of the C source). -/
inductive LuaValue where
  | nil
  | boolean (b : Bool)
  | number (n : Int)
  | str (s : String)
  | table
  | luafunction
  | cfunction
  | userdata
  | lightuserdata
deriving Repr, DecidableEq

/-- Test for the nil tag (`lua_isnil`). -/
def lua_isnil : LuaValue → Bool
  | .nil => true
  | _ => false

/-- Test for the boolean tag (`lua_isboolean`). -/
def lua_isboolean : LuaValue → Bool
  | .boolean _ => true
  | _ => false

/-- Test for the number tag (`lua_isnumber`). -/
def lua_isnumber : LuaValue → Bool
  | .number _ => true
  | _ => false

/-- Test for the string tag (`lua_isstring`). -/
def lua_isstring : LuaValue → Bool
  | .str _ => true
  | _ => false

/-- Test for the table tag (`lua_istable`). -/
def lua_istable : LuaValue → Bool
  | .table => true
  | _ => false

/-- Test for a function value, Lua or C (`lua_isfunction`). -/
def lua_isfunction : LuaValue → Bool
  | .luafunction => true
  | .cfunction => true
  | _ => false

/-- Test for a C function value (`lua_iscfunction`). -/
def lua_iscfunction : LuaValue → Bool
  | .cfunction => true
  | _ => false

/-- Test for userdata, full or light (`lua_isuserdata`). -/
def lua_isuserdata : LuaValue → Bool
  | .userdata => true
  | .lightuserdata => true
  | _ => false

/-- Test for light userdata (`lua_islightuserdata`). -/
def lua_islightuserdata : LuaValue → Bool
  | .lightuserdata => true
  | _ => false

/-- Conversion `lua_toboolean`. -/
def lua_toboolean : LuaValue → Bool
  | .boolean b => b
  | .nil => false
  | _ => true

/-- Conversion `lua_tonumber`: the number for a number value, 0 otherwise. -/
def lua_tonumber : LuaValue → Int
  | .number n => n
  | _ => 0

/-- Conversion `lua_tostring` on a string value. -/
def lua_tostring : LuaValue → String
  | .str s => s
  | .number n => toString n
  | _ => ""

/-- Storage of an integer in an `unsigned int` machine word: reduction
modulo 2^32 (models the `(int32_t)` / `(unsigned int)` casts). -/
def toWord32 (n : Int) : Nat := (n % (2 ^ 32)).toNat

/-- Pointwise update of native memory at one address
(`((unsigned int*)symbol_value)[0] = ...`). -/
def memWrite (m : Nat → Nat) (a v : Nat) : Nat → Nat :=
  fun x => if x = a then v else m x

/-- The `strcpy(symbol_name, symName)` step of the C code: the whole source
string is copied into the 128-byte `symbol_name` buffer with no length check,
so the name actually used for lookup is the entire string, untruncated. -/
def strcpyName (s : String) : String := s

/-- The `strncpy(prompt, pArg, 128); prompt[127] = 0` step of `l_vxReadLine`:
keeps at most the first 127 characters of the prompt. -/
def promptCopy (s : String) : String := String.mk (s.data.take 127)

/-- Bounded result buffer `buf[128]` filled by the external line reader:
at most 127 characters survive as a C string. -/
def bufCopy (s : String) : String := String.mk (s.data.take 127)

/-- Extraction of the symbol name from Lua stack position 1, shared by all
entry points: `if (nArgs >= 1) if (lua_isstring(luaVM, 1))
symName = lua_tostring(luaVM, 1)`. -/
def symNameOf (stack : List LuaValue) : Option String :=
  match stack.head? with
  | some v => if lua_isstring v then some (lua_tostring v) else none
  | none => none

/-- Marshalling of one positional argument into a machine-word slot: the
predicate chain of `l_ExecuteLuaCommand` lines 210-284, in source order. -/
def marshalArg (addrOf : String → Nat) (v : LuaValue) : Nat :=
  if lua_isnil v then 0
  else if lua_isboolean v then (if lua_toboolean v then 1 else 0)
  else if lua_isnumber v then toWord32 (lua_tonumber v)
  else if lua_isstring v then addrOf (lua_tostring v)
  else if lua_istable v then 0
  else if lua_isfunction v then 0
  else if lua_iscfunction v then 0
  else if lua_isuserdata v then 0
  else if lua_islightuserdata v then 0
  else 0

/-- Maximum number of native argument slots (`unsigned int arg[15]`). -/
def MAX_ARGS : Nat := 15

/-- The 15-slot argument vector built by `l_ExecuteLuaCommand`: all slots are
cleared to zero, `nArgs = lua_gettop` is clipped to 15, and stack positions
2..nArgs are marshalled into slots 0..nArgs-2 (position 1 is the name). -/
def argSlots (addrOf : String → Nat) (stack : List LuaValue) : List Nat :=
  let nArgs := min stack.length MAX_ARGS
  let marshalled := ((stack.take nArgs).drop 1).map (marshalArg addrOf)
  marshalled ++ List.replicate (MAX_ARGS - marshalled.length) 0

/-- Observable outcome of `l_ExecuteLuaCommand`: values pushed on the Lua
stack, diagnostic lines printed, names passed to `symFindByName` in order,
and the native invocation performed (address and slot vector), if any. -/
structure ExecResult where
  pushed : List Int
  output : List String
  lookups : List String
  invoked : Option (Nat × List Nat)
deriving Repr, DecidableEq

/-- Embedding of `l_ExecuteLuaCommand` (the Lua `vxDo` entry point),
lines 168-333 of the C source. `LEADING_UNDERSCORE` is `#undef`-ed in this
configuration, so when a name was supplied it is copied verbatim into
`symbol_name`; otherwise `symbol_name` keeps its initializer
`"\"no function\""`. A single `symFindByName` lookup follows; on success the
resolved address is invoked with the 15 argument slots regardless of its
symbol category and the int result is pushed as a Lua number; on failure a
diagnostic is printed and nothing is pushed. -/
def l_ExecuteLuaCommand (addrOf : String → Nat) (invoke : Nat → List Nat → Int)
    (tbl : SymTbl) (stack : List LuaValue) : ExecResult :=
  let slots := argSlots addrOf stack
  let symbol_name :=
    match symNameOf stack with
    | some s => strcpyName s
    | none => "\"no function\""
  match symFindByName tbl symbol_name with
  | some (a, _) =>
      { pushed := [invoke a slots]
        output := []
        lookups := [symbol_name]
        invoked := some (a, slots) }
  | none =>
      { pushed := []
        output := ["Error: Function " ++ symbol_name ++ " does not exist!"]
        lookups := [symbol_name]
        invoked := none }

/-- Observable outcome of `l_vxGet`: values pushed, diagnostics, lookups. -/
structure GetResult where
  pushed : List Nat
  output : List String
  lookups : List String
deriving Repr, DecidableEq

/-- Embedding of `l_vxGet` (the Lua `vxGet` entry point), lines 339-403 of
the C source: if the first argument is a string, look the name up verbatim;
on failure retry once with a leading underscore; on a hit push the word
stored at the resolved address; if both lookups fail print a diagnostic
naming the decorated spelling. -/
def l_vxGet (mem : Nat → Nat) (tbl : SymTbl) (stack : List LuaValue) :
    GetResult :=
  match symNameOf stack with
  | none => { pushed := [], output := [], lookups := [] }
  | some s =>
      let symbol_name := strcpyName s
      match symFindByName tbl symbol_name with
      | some (a, _) =>
          { pushed := [mem a], output := [], lookups := [symbol_name] }
      | none =>
          let decorated := "_" ++ s
          match symFindByName tbl decorated with
          | some (a, _) =>
              { pushed := [mem a], output := []
                lookups := [symbol_name, decorated] }
          | none =>
              { pushed := []
                output := ["Error: Symbol " ++ decorated ++ " does not exist!"]
                lookups := [symbol_name, decorated] }

/-- Observable outcome of `l_vxSet`: resulting native memory, diagnostics,
lookups. (`l_vxSet` pushes nothing.) -/
structure SetResult where
  mem : Nat → Nat
  output : List String
  lookups : List String

/-- Embedding of `l_vxSet` (the Lua `vxSet` entry point), lines 409-474 of
the C source: `error` is set unless the first argument is a string AND at
least two arguments are present; with `error` set the function returns at
once, with no lookup, no write and no diagnostic. Otherwise the name is
resolved verbatim, then decorated, and on a hit the word at the resolved
address is overwritten with `lua_tonumber(luaVM, 2)` truncated to a word. -/
def l_vxSet (mem : Nat → Nat) (tbl : SymTbl) (stack : List LuaValue) :
    SetResult :=
  match symNameOf stack with
  | none => { mem := mem, output := [], lookups := [] }
  | some s =>
      if stack.length < 2 then { mem := mem, output := [], lookups := [] }
      else
        let symbol_name := strcpyName s
        let value := toWord32 (lua_tonumber ((stack.get? 1).getD .nil))
        match symFindByName tbl symbol_name with
        | some (a, _) =>
            { mem := memWrite mem a value, output := []
              lookups := [symbol_name] }
        | none =>
            let decorated := "_" ++ s
            match symFindByName tbl decorated with
            | some (a, _) =>
                { mem := memWrite mem a value, output := []
                  lookups := [symbol_name, decorated] }
            | none =>
                { mem := mem
                  output := ["Error: Symbol " ++ decorated ++
                    " does not exist!"]
                  lookups := [symbol_name, decorated] }

/-- Embedding of `l_vxReadLine`, lines 476-506 of the C source: the prompt is
copied with `strncpy` into a 128-byte buffer and NUL-terminated at index 127,
the external line reader fills a 128-byte result buffer, and the result is
pushed as a string. (When the first argument is present but not a string the
C code reads an uninitialized `error` flag; modelled here as the no-push
path.) -/
def l_vxReadLine (readline : String → String) (stack : List LuaValue) :
    List String :=
  match symNameOf stack with
  | some p => [bufCopy (readline (promptCopy p))]
  | none => []

/-- The undecorated-then-decorated resolution policy shared by the `vxGet`
and `vxSet` paths: verbatim lookup first, then one retry with a single
leading underscore. -/
def resolveGetSet (tbl : SymTbl) (nm : String) : Option (Nat × SymType) :=
  match symFindByName tbl nm with
  | some r => some r
  | none => symFindByName tbl ("_" ++ nm)

/-- Test fixture: an arbitrary concrete string-address environment. -/
def addrOf0 : String → Nat := fun s => 1000 + s.length

/-- Test fixture: a concrete native invocation environment returning the
address plus the sum of the argument slots. -/
def invoke0 : Nat → List Nat → Int := fun a slots => Int.ofNat (a + slots.sum)

/-- Test fixture: a 200-character symbol name, longer than the 128-byte
`symbol_name` buffer. -/
def longName : String := String.mk (List.replicate 200 'a')

/-! ## Structural lemmas about the argument slot vector -/

/-- The name extracted from a stack whose first value is a string is that
string. -/
theorem symNameOf_str (nm : String) (rest : List LuaValue) :
    symNameOf (LuaValue.str nm :: rest) = some nm := rfl

/-- For a call with at most 14 positional arguments after the name, the slot
vector is the marshalled arguments padded with zeros to 15 slots. -/
theorem argSlots_cons (addrOf : String → Nat) (v : LuaValue)
    (args : List LuaValue) (h : args.length ≤ 14) :
    argSlots addrOf (v :: args)
      = args.map (marshalArg addrOf) ++ List.replicate (15 - args.length) 0 := by
  unfold argSlots
  simp only [MAX_ARGS]
  have h1 : min (v :: args).length 15 = args.length + 1 := by
    simp only [List.length_cons]
    omega
  rw [h1]
  simp only [List.take_succ_cons, List.drop_succ_cons, List.drop_zero,
    List.take_of_length_le (Nat.le_refl args.length), List.length_map]

/-- For a call with at least 14 positional arguments after the name, only the
first 14 are marshalled and the single remaining slot is zero. -/
theorem argSlots_cons_overflow (addrOf : String → Nat) (v : LuaValue)
    (args : List LuaValue) (h : 14 ≤ args.length) :
    argSlots addrOf (v :: args)
      = (args.take 14).map (marshalArg addrOf) ++ [0] := by
  unfold argSlots
  simp only [MAX_ARGS]
  have h1 : min (v :: args).length 15 = 15 := by
    simp only [List.length_cons]
    omega
  have h2 : ((args.take 14).map (marshalArg addrOf)).length = 14 := by
    simp only [List.length_map, List.length_take]
    omega
  rw [h1]
  simp [List.take_succ_cons, List.drop_succ_cons, h2, Nat.min_eq_left h]

/-- The slot vector always has exactly 15 entries: no argument count can
overflow the buffer. -/
theorem argSlots_length (addrOf : String → Nat) (stack : List LuaValue) :
    (argSlots addrOf stack).length = 15 := by
  unfold argSlots
  simp only [MAX_ARGS, List.length_append, List.length_map, List.length_drop,
    List.length_take, List.length_replicate]
  omega

/-! ## C1 -/

/-- C1 (counterexample). The claim allows argument counts up to k = 15, but
`nArgs = lua_gettop` counts the function name itself before being clipped to
15, so a 15th positional argument is dropped: calling `f` with the numbers
1..15 invokes it with slot 14 equal to 0, not to the marshalled 15th
argument, contradicting the claim at k = 15. -/
theorem c1_counterexample :
    (l_ExecuteLuaCommand addrOf0 invoke0 [("f", (5, SymType.code))]
        (LuaValue.str "f" ::
          (List.range 15).map (fun i => LuaValue.number (Int.ofNat (i + 1))))).invoked
      = some (5, [1, 2, 3, 4, 5, 6, 7, 8, 9, 10, 11, 12, 13, 14, 0]) ∧
    (l_ExecuteLuaCommand addrOf0 invoke0 [("f", (5, SymType.code))]
        (LuaValue.str "f" ::
          (List.range 15).map (fun i => LuaValue.number (Int.ofNat (i + 1))))).invoked
      ≠ some (5, ((List.range 15).map
          (fun i => LuaValue.number (Int.ofNat (i + 1)))).map (marshalArg addrOf0)) := by
  constructor
  · decide
  · decide

/-- C1 (amended: argument counts 0 ≤ k ≤ 14). For every symbol `f` registered
as a code symbol and every argument list of length k ≤ 14, `vxDo(f, a1..ak)`
resolves `f`, invokes its address with the marshalled a1..ak in slots 0..k-1
and zero in all remaining slots up to slot 14, and pushes exactly the
invocation's return value back to Lua. (The original claim's k = 15 case
fails because the name occupies one of the 15 counted stack slots, so at most
14 arguments are marshalled.) -/
theorem c1_call_marshals_and_returns (addrOf : String → Nat)
    (invoke : Nat → List Nat → Int) (tbl : SymTbl) (fname : String) (a : Nat)
    (args : List LuaValue) (hk : args.length ≤ 14)
    (hf : symFindByName tbl fname = some (a, SymType.code)) :
    l_ExecuteLuaCommand addrOf invoke tbl (LuaValue.str fname :: args)
      = { pushed := [invoke a (args.map (marshalArg addrOf) ++
            List.replicate (15 - args.length) 0)]
          output := []
          lookups := [fname]
          invoked := some (a, args.map (marshalArg addrOf) ++
            List.replicate (15 - args.length) 0) } := by
  have e := argSlots_cons addrOf (LuaValue.str fname) args hk
  simp only [l_ExecuteLuaCommand, symNameOf_str, strcpyName, e, hf]

/-- C1 witness: `vxDo("add_two_ints", 2, 3)` with the symbol registered at
address 5 invokes slots [2, 3, 0, ..., 0] and pushes the callee's result. -/
theorem c1_witness :
    ([LuaValue.number 2, LuaValue.number 3] : List LuaValue).length ≤ 14 ∧
    symFindByName [("add_two_ints", (5, SymType.code))] "add_two_ints"
      = some (5, SymType.code) ∧
    l_ExecuteLuaCommand addrOf0 invoke0 [("add_two_ints", (5, SymType.code))]
        (LuaValue.str "add_two_ints" :: [LuaValue.number 2, LuaValue.number 3])
      = { pushed := [10]
          output := []
          lookups := ["add_two_ints"]
          invoked := some (5, [2, 3, 0, 0, 0, 0, 0, 0, 0, 0, 0, 0, 0, 0, 0]) } :=
  ⟨by decide, by decide,
    (c1_call_marshals_and_returns addrOf0 invoke0
      [("add_two_ints", (5, SymType.code))] "add_two_ints" 5
      [LuaValue.number 2, LuaValue.number 3] (by decide) (by decide)).trans
      (by decide)⟩

/-! ## C2 -/

/-- C2. For every name resolvable by the undecorated-then-decorated policy of
the get/set paths to some address, `vxGet(name)` pushes the word currently
stored at that address, and after `vxSet(name, y)` a subsequent `vxGet(name)`
pushes y truncated to a 32-bit word. -/
theorem c2_get_set_roundtrip (mem : Nat → Nat) (tbl : SymTbl) (nm : String)
    (a : Nat) (t : SymType) (y : Int)
    (h : resolveGetSet tbl nm = some (a, t)) :
    (l_vxGet mem tbl [LuaValue.str nm]).pushed = [mem a] ∧
    (l_vxGet (l_vxSet mem tbl [LuaValue.str nm, LuaValue.number y]).mem tbl
        [LuaValue.str nm]).pushed = [toWord32 y] := by
  cases hv : symFindByName tbl nm with
  | some r =>
      have hr : r = (a, t) := by simpa [resolveGetSet, hv] using h
      subst hr
      constructor
      · simp [l_vxGet, symNameOf_str, strcpyName, hv]
      · simp [l_vxGet, l_vxSet, symNameOf_str, strcpyName, hv, lua_tonumber,
          memWrite]
  | none =>
      have hd : symFindByName tbl ("_" ++ nm) = some (a, t) := by
        simpa [resolveGetSet, hv] using h
      constructor
      · simp [l_vxGet, symNameOf_str, strcpyName, hv, hd]
      · simp [l_vxGet, l_vxSet, symNameOf_str, strcpyName, hv, hd,
          lua_tonumber, memWrite]

/-- C2 witness: with `counter` registered as a data symbol at address 100 and
memory holding 7 everywhere, `vxGet("counter")` pushes 7, and after
`vxSet("counter", 321)` it pushes 321. -/
theorem c2_witness :
    resolveGetSet [("counter", (100, SymType.data))] "counter"
      = some (100, SymType.data) ∧
    (l_vxGet (fun _ => 7) [("counter", (100, SymType.data))]
        [LuaValue.str "counter"]).pushed = [7] ∧
    (l_vxGet (l_vxSet (fun _ => 7) [("counter", (100, SymType.data))]
          [LuaValue.str "counter", LuaValue.number 321]).mem
        [("counter", (100, SymType.data))] [LuaValue.str "counter"]).pushed
      = [toWord32 321] :=
  ⟨by decide,
    (c2_get_set_roundtrip (fun _ => 7) [("counter", (100, SymType.data))]
      "counter" 100 SymType.data 321 (by decide)).1,
    (c2_get_set_roundtrip (fun _ => 7) [("counter", (100, SymType.data))]
      "counter" 100 SymType.data 321 (by decide)).2⟩

/-! ## C3 -/

/-- C3. For every name that resolves under neither the verbatim nor the
underscore-decorated spelling, `vxDo(name, ...)` pushes no value, prints the
not-found diagnostic, and performs no native invocation. -/
theorem c3_unresolved_name_never_invoked (addrOf : String → Nat)
    (invoke : Nat → List Nat → Int) (tbl : SymTbl) (nm : String)
    (args : List LuaValue)
    (h1 : symFindByName tbl nm = none)
    (_h2 : symFindByName tbl ("_" ++ nm) = none) :
    (l_ExecuteLuaCommand addrOf invoke tbl (LuaValue.str nm :: args)).pushed
      = [] ∧
    (l_ExecuteLuaCommand addrOf invoke tbl (LuaValue.str nm :: args)).invoked
      = none ∧
    (l_ExecuteLuaCommand addrOf invoke tbl (LuaValue.str nm :: args)).output
      = ["Error: Function " ++ nm ++ " does not exist!"] := by
  simp only [l_ExecuteLuaCommand, symNameOf_str, strcpyName, h1]
  exact ⟨trivial, trivial, trivial⟩

/-- C3 witness: `vxDo("nonexistent_fn")` against an empty symbol table pushes
nothing, invokes nothing, and prints the diagnostic. -/
theorem c3_witness :
    symFindByName [] "nonexistent_fn" = none ∧
    symFindByName [] ("_" ++ "nonexistent_fn") = none ∧
    ((l_ExecuteLuaCommand addrOf0 invoke0 [] [LuaValue.str "nonexistent_fn"]).pushed
        = [] ∧
      (l_ExecuteLuaCommand addrOf0 invoke0 [] [LuaValue.str "nonexistent_fn"]).invoked
        = none ∧
      (l_ExecuteLuaCommand addrOf0 invoke0 [] [LuaValue.str "nonexistent_fn"]).output
        = ["Error: Function " ++ "nonexistent_fn" ++ " does not exist!"]) :=
  ⟨rfl, rfl,
    c3_unresolved_name_never_invoked addrOf0 invoke0 [] "nonexistent_fn" []
      rfl rfl⟩

/-! ## C4 -/

/-- C4 (counterexample). The claim says every path retries a failed verbatim
lookup once with the decoration character; but with a table containing only
the decorated spelling `_f`, `vxDo("f")` performs the single verbatim lookup,
reports not-found, and never tries `_f`, even though `_f` resolves. -/
theorem c4_counterexample :
    (l_ExecuteLuaCommand addrOf0 invoke0 [("_f", (5, SymType.code))]
        [LuaValue.str "f"]).lookups = ["f"] ∧
    (l_ExecuteLuaCommand addrOf0 invoke0 [("_f", (5, SymType.code))]
        [LuaValue.str "f"]).invoked = none ∧
    (l_ExecuteLuaCommand addrOf0 invoke0 [("_f", (5, SymType.code))]
        [LuaValue.str "f"]).output = ["Error: Function f does not exist!"] ∧
    symFindByName [("_f", (5, SymType.code))] ("_" ++ "f")
      = some (5, SymType.code) := by decide

/-- C4 (amended). The get and set paths look the name up verbatim first and,
only if that fails, retry exactly once with the underscore prepended, and
they emit their not-found diagnostic exactly when both spellings fail; the
call path performs exactly one verbatim lookup, never retries with the
decoration, and emits its not-found diagnostic exactly when that single
lookup fails. -/
theorem c4_amended_lookup_policy (mem : Nat → Nat) (tbl : SymTbl)
    (nm : String) (addrOf : String → Nat) (invoke : Nat → List Nat → Int)
    (args : List LuaValue) (y : Int) :
    ((l_vxGet mem tbl [LuaValue.str nm]).lookups
        = if (symFindByName tbl nm).isSome then [nm] else [nm, "_" ++ nm]) ∧
    ((l_vxSet mem tbl [LuaValue.str nm, LuaValue.number y]).lookups
        = if (symFindByName tbl nm).isSome then [nm] else [nm, "_" ++ nm]) ∧
    ((l_ExecuteLuaCommand addrOf invoke tbl
        (LuaValue.str nm :: args)).lookups = [nm]) ∧
    ((l_vxGet mem tbl [LuaValue.str nm]).output
        = if symFindByName tbl nm = none ∧ symFindByName tbl ("_" ++ nm) = none
          then ["Error: Symbol " ++ ("_" ++ nm) ++ " does not exist!"]
          else []) ∧
    ((l_vxSet mem tbl [LuaValue.str nm, LuaValue.number y]).output
        = if symFindByName tbl nm = none ∧ symFindByName tbl ("_" ++ nm) = none
          then ["Error: Symbol " ++ ("_" ++ nm) ++ " does not exist!"]
          else []) ∧
    ((l_ExecuteLuaCommand addrOf invoke tbl
        (LuaValue.str nm :: args)).output
        = if symFindByName tbl nm = none
          then ["Error: Function " ++ nm ++ " does not exist!"]
          else []) := by
  cases hv : symFindByName tbl nm with
  | some r =>
      refine ⟨?_, ?_, ?_, ?_, ?_, ?_⟩ <;>
        simp [l_vxGet, l_vxSet, l_ExecuteLuaCommand, symNameOf_str,
          strcpyName, hv]
  | none =>
      cases hd : symFindByName tbl ("_" ++ nm) with
      | some r =>
          refine ⟨?_, ?_, ?_, ?_, ?_, ?_⟩ <;>
            simp [l_vxGet, l_vxSet, l_ExecuteLuaCommand, symNameOf_str,
              strcpyName, hv, hd]
      | none =>
          refine ⟨?_, ?_, ?_, ?_, ?_, ?_⟩ <;>
            simp [l_vxGet, l_vxSet, l_ExecuteLuaCommand, symNameOf_str,
              strcpyName, hv, hd]

/-! ## C5 -/

/-- C5 (counterexample). The claim says `vxSet` with fewer than two arguments
produces a diagnostic reporting the missing value; in fact the one-argument
call returns at once with no output at all (and no lookup). -/
theorem c5_counterexample :
    (l_vxSet (fun _ => 7) [("v", (100, SymType.data))]
        [LuaValue.str "v"]).output = [] ∧
    (l_vxSet (fun _ => 7) [("v", (100, SymType.data))]
        [LuaValue.str "v"]).lookups = [] :=
  ⟨rfl, rfl⟩

/-- C5 (amended). Every invocation of `vxSet` with fewer than two arguments
is an immediate no-op: memory is unchanged, no symbol lookup is performed,
and no diagnostic is printed. -/
theorem c5_amended_missing_value_silent_noop (mem : Nat → Nat) (tbl : SymTbl)
    (stack : List LuaValue) (h : stack.length < 2) :
    (l_vxSet mem tbl stack).mem = mem ∧
    (l_vxSet mem tbl stack).lookups = [] ∧
    (l_vxSet mem tbl stack).output = [] := by
  cases hs : symNameOf stack with
  | none => simp [l_vxSet, hs]
  | some s => simp [l_vxSet, hs, h]

/-- C5 witness: `vxSet("v")` with one argument leaves memory, lookups and
output untouched. -/
theorem c5_witness :
    ([LuaValue.str "v"] : List LuaValue).length < 2 ∧
    ((l_vxSet (fun _ => 7) [("v", (100, SymType.data))]
          [LuaValue.str "v"]).mem = (fun _ => 7) ∧
      (l_vxSet (fun _ => 7) [("v", (100, SymType.data))]
          [LuaValue.str "v"]).lookups = [] ∧
      (l_vxSet (fun _ => 7) [("v", (100, SymType.data))]
          [LuaValue.str "v"]).output = []) :=
  ⟨by decide,
    c5_amended_missing_value_silent_noop (fun _ => 7)
      [("v", (100, SymType.data))] [LuaValue.str "v"] (by decide)⟩

/-! ## C6 -/

/-- C6 (counterexample). The claim says a name resolving only to a data
symbol is a resolution failure for `vxDo`; in fact the call path never
inspects the symbol category: with `v` registered as a data symbol at
address 100, `vxDo("v")` invokes address 100 and pushes its result. -/
theorem c6_counterexample :
    (l_ExecuteLuaCommand addrOf0 invoke0 [("v", (100, SymType.data))]
        [LuaValue.str "v"]).invoked = some (100, List.replicate 15 0) ∧
    (l_ExecuteLuaCommand addrOf0 invoke0 [("v", (100, SymType.data))]
        [LuaValue.str "v"]).pushed = [100] ∧
    (l_ExecuteLuaCommand addrOf0 invoke0 [("v", (100, SymType.data))]
        [LuaValue.str "v"]).output = [] := by decide

/-- C6 (amended). The call path resolves the target name with no restriction
on symbol category: whatever `symFindByName` returns, code or data, its
address is invoked with the argument slots and its result is pushed. -/
theorem c6_amended_no_category_restriction (addrOf : String → Nat)
    (invoke : Nat → List Nat → Int) (tbl : SymTbl) (nm : String)
    (args : List LuaValue) (a : Nat) (t : SymType)
    (hf : symFindByName tbl nm = some (a, t)) :
    l_ExecuteLuaCommand addrOf invoke tbl (LuaValue.str nm :: args)
      = { pushed := [invoke a (argSlots addrOf (LuaValue.str nm :: args))]
          output := []
          lookups := [nm]
          invoked := some (a, argSlots addrOf (LuaValue.str nm :: args)) } := by
  simp only [l_ExecuteLuaCommand, symNameOf_str, strcpyName, hf]

/-- C6 witness: the data symbol `v` at address 100 is invoked by
`vxDo("v")`. -/
theorem c6_witness :
    symFindByName [("v", (100, SymType.data))] "v" = some (100, SymType.data) ∧
    l_ExecuteLuaCommand addrOf0 invoke0 [("v", (100, SymType.data))]
        [LuaValue.str "v"]
      = { pushed := [100]
          output := []
          lookups := ["v"]
          invoked := some (100, [0, 0, 0, 0, 0, 0, 0, 0, 0, 0, 0, 0, 0, 0, 0]) } :=
  ⟨by decide,
    (c6_amended_no_category_restriction addrOf0 invoke0
      [("v", (100, SymType.data))] "v" [] 100 SymType.data (by decide)).trans
      (by decide)⟩

/-! ## C7 -/

/-- C7. Marshalling of a positional call argument follows its dynamic type:
nil becomes the zero word, a boolean becomes 0 or 1, a number is truncated to
a 32-bit word, a string becomes the address of its backing storage, and every
other dynamic type (table, Lua function, C function, userdata, light
userdata) becomes the zero word; the marshalling function is total, so no
type ever raises an error. -/
theorem c7_marshalling_by_dynamic_type (addrOf : String → Nat) :
    marshalArg addrOf LuaValue.nil = 0 ∧
    (∀ b, marshalArg addrOf (LuaValue.boolean b) = if b then 1 else 0) ∧
    (∀ n : Int, marshalArg addrOf (LuaValue.number n) = toWord32 n) ∧
    (∀ s, marshalArg addrOf (LuaValue.str s) = addrOf s) ∧
    marshalArg addrOf LuaValue.table = 0 ∧
    marshalArg addrOf LuaValue.luafunction = 0 ∧
    marshalArg addrOf LuaValue.cfunction = 0 ∧
    marshalArg addrOf LuaValue.userdata = 0 ∧
    marshalArg addrOf LuaValue.lightuserdata = 0 :=
  ⟨rfl, fun _ => rfl, fun _ => rfl, fun _ => rfl, rfl, rfl, rfl, rfl, rfl⟩

/-! ## C8 -/

/-- C8. A call supplying more than 15 meaningful arguments behaves exactly
like the call truncated to the (at most) 14 arguments that are marshalled:
the excess trailing arguments are discarded deterministically, and the slot
vector still has exactly 15 entries, so the fixed buffer is never
overflowed. -/
theorem c8_arity_overflow_truncated (addrOf : String → Nat)
    (invoke : Nat → List Nat → Int) (tbl : SymTbl) (nm : String)
    (args : List LuaValue) (h : 15 < args.length) :
    l_ExecuteLuaCommand addrOf invoke tbl (LuaValue.str nm :: args)
      = l_ExecuteLuaCommand addrOf invoke tbl
          (LuaValue.str nm :: args.take 14) ∧
    (argSlots addrOf (LuaValue.str nm :: args)).length = 15 := by
  have h14 : 14 ≤ args.length := by omega
  have h14t : 14 ≤ (args.take 14).length := by
    simp only [List.length_take]
    omega
  have e : argSlots addrOf (LuaValue.str nm :: args)
      = argSlots addrOf (LuaValue.str nm :: args.take 14) := by
    rw [argSlots_cons_overflow addrOf _ args h14,
      argSlots_cons_overflow addrOf _ (args.take 14) h14t]
    simp [List.take_take]
  refine ⟨?_, argSlots_length addrOf _⟩
  simp only [l_ExecuteLuaCommand, symNameOf_str, strcpyName, e]

/-- C8 witness: a call with 16 numeric arguments equals the call truncated to
its first 14, and the slot vector has 15 entries. -/
theorem c8_witness :
    15 < ((List.range 16).map
        (fun i => LuaValue.number (Int.ofNat i))).length ∧
    (l_ExecuteLuaCommand addrOf0 invoke0 [("f", (5, SymType.code))]
        (LuaValue.str "f" ::
          (List.range 16).map (fun i => LuaValue.number (Int.ofNat i)))
      = l_ExecuteLuaCommand addrOf0 invoke0 [("f", (5, SymType.code))]
          (LuaValue.str "f" ::
            ((List.range 16).map
              (fun i => LuaValue.number (Int.ofNat i))).take 14) ∧
      (argSlots addrOf0 (LuaValue.str "f" ::
          (List.range 16).map
            (fun i => LuaValue.number (Int.ofNat i)))).length = 15) :=
  ⟨by decide,
    c8_arity_overflow_truncated addrOf0 invoke0 [("f", (5, SymType.code))]
      "f" ((List.range 16).map (fun i => LuaValue.number (Int.ofNat i)))
      (by decide)⟩

/-! ## C9 -/

/-- C9 (counterexample). The claim says symbol names longer than 127
characters are truncated to fit the 128-byte `symbol_name` buffer; in fact
the `strcpy` copy is unbounded, so `vxDo` with a 200-character name passes
the whole 200-character string to the symbol-table lookup, untruncated. -/
theorem c9_counterexample :
    (l_ExecuteLuaCommand addrOf0 invoke0 [] [LuaValue.str longName]).lookups
      = [longName] ∧
    127 < longName.length := by
  have e : longName.length = 200 := by
    rw [show longName.length = (List.replicate 200 'a').length from rfl,
      List.length_replicate]
  exact ⟨rfl, by omega⟩

/-- C9 (amended). The `vxReadLine` prompt is deterministically truncated to
at most 127 characters to fit its 128-byte buffer, and the bounded result
buffer is pushed; symbol names, in contrast, are copied whole by `strcpy`
without any truncation, and the full name is what reaches the lookup
(names longer than 127 characters therefore overrun the buffer in the C
code instead of being truncated). -/
theorem c9_amended_prompt_truncated_names_not (p nm : String)
    (readline : String → String) (mem : Nat → Nat) (tbl : SymTbl) :
    (promptCopy p).length = min p.length 127 ∧
    l_vxReadLine readline [LuaValue.str p]
      = [bufCopy (readline (promptCopy p))] ∧
    strcpyName nm = nm ∧
    (l_vxGet mem tbl [LuaValue.str nm]).lookups.head? = some nm := by
  refine ⟨?_, rfl, rfl, ?_⟩
  · have e1 : (promptCopy p).length = (p.data.take 127).length := rfl
    rw [e1, List.length_take, Nat.min_comm]
    rfl
  · cases hv : symFindByName tbl nm with
    | some r => simp [l_vxGet, symNameOf_str, strcpyName, hv]
    | none =>
        cases hd : symFindByName tbl ("_" ++ nm) with
        | some r => simp [l_vxGet, symNameOf_str, strcpyName, hv, hd]
        | none => simp [l_vxGet, symNameOf_str, strcpyName, hv, hd]

/-! ## C10 -/

/-- C10. When `vxDo` is invoked with zero arguments or with a first argument
that is not a string, the target name stays unset and the symbol-table
lookup still happens, using the initializer of the `symbol_name` buffer —
the literal text `"no function"` including its quote characters; when that
placeholder is absent from the table, the diagnostic names it. -/
theorem c10_placeholder_lookup (addrOf : String → Nat)
    (invoke : Nat → List Nat → Int) (tbl : SymTbl) (stack : List LuaValue)
    (h : stack = [] ∨ ∀ s, stack.head? ≠ some (LuaValue.str s)) :
    (l_ExecuteLuaCommand addrOf invoke tbl stack).lookups
      = ["\"no function\""] ∧
    (symFindByName tbl "\"no function\"" = none →
      (l_ExecuteLuaCommand addrOf invoke tbl stack).output
        = ["Error: Function \"no function\" does not exist!"]) := by
  have hs : symNameOf stack = none := by
    rcases h with h | h
    · subst h
      rfl
    · cases stack with
      | nil => rfl
      | cons v rest => cases v <;> first | rfl | exact absurd rfl (h _)
  constructor
  · cases hv : symFindByName tbl "\"no function\"" with
    | some r => simp [l_ExecuteLuaCommand, hs, hv]
    | none => simp [l_ExecuteLuaCommand, hs, hv]
  · intro hnone
    simp only [l_ExecuteLuaCommand, hs, hnone]
    rfl

/-- C10 witness: `vxDo()` with no arguments against an empty symbol table
looks up the placeholder and prints the diagnostic naming it. -/
theorem c10_witness :
    (([] : List LuaValue) = [] ∨
      ∀ s, ([] : List LuaValue).head? ≠ some (LuaValue.str s)) ∧
    (l_ExecuteLuaCommand addrOf0 invoke0 [] []).lookups
      = ["\"no function\""] ∧
    (symFindByName [] "\"no function\"" = none →
      (l_ExecuteLuaCommand addrOf0 invoke0 [] []).output
        = ["Error: Function \"no function\" does not exist!"]) :=
  ⟨Or.inl rfl,
    (c10_placeholder_lookup addrOf0 invoke0 [] [] (Or.inl rfl)).1,
    (c10_placeholder_lookup addrOf0 invoke0 [] [] (Or.inl rfl)).2⟩

end VxLuaGlue
